import Mathlib

/-!
Verification of the phylotorch core graph machinery: a shallow embedding of
`phylotorch/core/utils.py` and `phylotorch/core/model.py`, with theorems
checking the specification's claims about reference resolution, listener
notification, lazy recomputation, plate expansion and parameter
construction.  Python numbers are modelled as rationals, torch tensors as
shape/dtype/value records, mutable state by explicit state passing, and
raised exceptions by `Except String`.
-/

namespace Phylotorch

/-- JSON-like document values: the parsed documents consumed by
`process_object`, `expand_plates` and `Parameter.from_json`. -/
inductive JsonVal : Type where
  | str (s : String)
  | num (q : ℚ)
  | bool (b : Bool)
  | arr (xs : List JsonVal)
  | obj (fields : List (String × JsonVal))

/-- Field lookup in a JSON mapping (`data[key]` returning `None` when the
key is missing or the value is not a mapping). -/
def getField : JsonVal → String → Option JsonVal
  | .obj fs, k => fs.lookup k
  | _, _ => none

/-- Source: `key in data` for a JSON mapping. -/
def hasField (j : JsonVal) (k : String) : Bool :=
  (getField j k).isSome

/-- The value contents of a torch tensor.  Literal contents are lists of
rationals in row-major order; contents drawn by an in-place random fill
(`normal_` and friends) are recorded symbolically with the distribution
name and its numeric arguments, since the numeric stream of the torch RNG
is outside this embedding. -/
inductive TVals : Type where
  | lits (vs : List ℚ)
  | randFill (name : String) (params : List ℚ)
deriving Repr, DecidableEq

/-- A torch tensor as used by `model.py`: a shape, a dtype name (such as
"torch.float64"), contents, and the `requires_grad` flag. -/
structure Tensor : Type where
  shape : List Nat
  dtype : String
  vals : TVals
  requiresGrad : Bool
deriving Repr, DecidableEq

/-- A `Parameter` from `model.py`: an optional id, the held tensor, and
the ordered list of registered listeners.  Listeners are modelled as
opaque handles (natural numbers); dispatching a notification to a
listener is recorded as an emitted call rather than executed, since the
listener's own code is arbitrary. -/
structure Parameter : Type where
  id : Option String
  tensor : Tensor
  listeners : List Nat
deriving Repr, DecidableEq

/-- One dispatched `handle_parameter_changed(variable, index, event)`
call: the listener it was dispatched to, the parameter object as the
listener receives it at call time (so `arg.tensor` is what the listener
observes when it reads `variable.tensor`), and the `index`/`event`
arguments. -/
structure ParamCall : Type where
  listener : Nat
  arg : Parameter
  index : Option Nat
  event : Option Nat
deriving Repr, DecidableEq

/-- Source: `Parameter.fire_parameter_changed`: iterate over `self.listeners` in
order, invoking `handle_parameter_changed(self, index, event)` on each.
The result lists the dispatched calls in dispatch order. -/
def Parameter.fire_parameter_changed (p : Parameter) (index event : Option Nat) :
    List ParamCall :=
  p.listeners.map (fun l => ⟨l, p, index, event⟩)

/-- The `Parameter.tensor` property setter: assign `self._tensor = tensor`
and then call `self.fire_parameter_changed()`.  Returns the updated
parameter together with the notifications dispatched before the setter
returns. -/
def Parameter.tensor_set (p : Parameter) (t : Tensor) : Parameter × List ParamCall :=
  let p' : Parameter := { p with tensor := t }
  (p', p'.fire_parameter_changed none none)

/-- Source: `Parameter.update(value)`: if `self.id in value` then assign
`value[self.id]` through the `tensor` setter, else do nothing.  The
`value` mapping is modelled as an association list keyed by id. -/
def Parameter.update (p : Parameter) (value : List (String × Tensor)) :
    Parameter × List ParamCall :=
  match p.id.bind (fun i => value.lookup i) with
  | some t => p.tensor_set t
  | none => (p, [])

/-- Sample tensors used by concrete witnesses. -/
def tA : Tensor := ⟨[1], "torch.float64", .lits [0], false⟩

def tB : Tensor := ⟨[1], "torch.float64", .lits [5], false⟩

/-- Claim C2: assigning to `p.tensor` fires exactly one parameter-changed
notification per currently registered listener, synchronously as part of
the setter, in registration order, and each notified listener receives
the parameter carrying the new tensor value, not the old one. -/
theorem C2_tensor_setter_notifies_each_listener_once_in_order (p : Parameter) (t : Tensor) :
    (p.tensor_set t).1.tensor = t ∧
    (p.tensor_set t).2.length = p.listeners.length ∧
    (∀ k (h : k < (p.tensor_set t).2.length),
      ((p.tensor_set t).2.get ⟨k, h⟩).listener =
        p.listeners.get ⟨k, by simpa [Parameter.tensor_set, Parameter.fire_parameter_changed] using h⟩ ∧
      ((p.tensor_set t).2.get ⟨k, h⟩).arg.tensor = t ∧
      ((p.tensor_set t).2.get ⟨k, h⟩).index = none ∧
      ((p.tensor_set t).2.get ⟨k, h⟩).event = none) := by
  refine ⟨rfl, by simp [Parameter.tensor_set, Parameter.fire_parameter_changed], ?_⟩
  intro k h
  simp [Parameter.tensor_set, Parameter.fire_parameter_changed] at h ⊢

theorem C2_witness :
    (((⟨some "a", tA, [3, 5]⟩ : Parameter).tensor_set tB).2.get ⟨1, by decide⟩).arg.tensor = tB :=
  ((C2_tensor_setter_notifies_each_listener_once_in_order ⟨some "a", tA, [3, 5]⟩ tB).2.2 1
    (by decide)).2.1

/-- Claim C10: `p.update(value)` with `p.id` absent from the keys of
`value` leaves the tensor unchanged and fires no notification; with
`p.id` present, it is exactly the `tensor` setter applied at
`value[p.id]` (same new state, same notifications). -/
theorem C10_parameter_update_frame (p : Parameter) (value : List (String × Tensor)) :
    (p.id.bind (fun i => value.lookup i) = none → p.update value = (p, [])) ∧
    (∀ t, p.id.bind (fun i => value.lookup i) = some t →
      p.update value = p.tensor_set t) := by
  constructor
  · intro h
    simp [Parameter.update, h]
  · intro t h
    simp [Parameter.update, h]

theorem C10_witness :
    (⟨some "a", tA, [3]⟩ : Parameter).update [("b", tB)] = (⟨some "a", tA, [3]⟩, []) ∧
    (⟨some "a", tA, [3]⟩ : Parameter).update [("a", tB)] =
      (⟨some "a", tA, [3]⟩ : Parameter).tensor_set tB :=
  ⟨(C10_parameter_update_frame ⟨some "a", tA, [3]⟩ [("b", tB)]).1 (by decide),
   (C10_parameter_update_frame ⟨some "a", tA, [3]⟩ [("a", tB)]).2 tB (by decide)⟩

/-- State of a `TransformedParameter` over a single upstream parameter
`x`, as needed for the lazy-invalidation claims: the upstream tensor, the
cached `_tensor`, the `need_update` flag, and the node's own listener
list.  The transform callable is passed explicitly as a function
argument to each operation. -/
structure TPState : Type where
  xTensor : Tensor
  cached : Tensor
  need_update : Bool
  listeners : List Nat
deriving Repr, DecidableEq

/-- Source: `TransformedParameter.handle_parameter_changed`: set
`self.need_update = True` and re-fire `fire_parameter_changed` to the
node's own listeners; the transform is not applied.  The second component
lists the listeners notified in order; the third counts the applications
of the transform performed by this operation (none). -/
def tpHandleParameterChanged (s : TPState) : TPState × List Nat × Nat :=
  ({ s with need_update := true }, s.listeners, 0)

/-- Source: `TransformedParameter.apply_transform` (single-upstream case):
`self._tensor = self.transform(self.x.tensor)`. -/
def tpApplyTransform (f : Tensor → Tensor) (s : TPState) : TPState :=
  { s with cached := f s.xTensor }

/-- The `TransformedParameter.tensor` property getter: if `need_update`
then apply the transform and clear the flag; return `_tensor`.  Returns
the new state, the value read, and the number of transform applications
performed by this read. -/
def tpReadTensor (f : Tensor → Tensor) (s : TPState) : TPState × Tensor × Nat :=
  if s.need_update then
    let s' : TPState := { tpApplyTransform f s with need_update := false }
    (s', s'.cached, 1)
  else (s, s.cached, 0)

/-- Source: `TransformedParameter._call` (single-upstream case): resolve
`need_update` exactly as the getter does, then return
`transform.log_abs_det_jacobian(self.x.tensor, self._tensor)`; `jac`
models `log_abs_det_jacobian`. -/
def tpCall (f : Tensor → Tensor) (jac : Tensor → Tensor → Tensor) (s : TPState) :
    TPState × Tensor × Nat :=
  if s.need_update then
    let s' : TPState := { tpApplyTransform f s with need_update := false }
    (s', jac s'.xTensor s'.cached, 1)
  else (s, jac s.xTensor s.cached, 0)

/-- A mutation of the upstream parameter's tensor as seen by the derived
node: the upstream setter assigns the new value and fires, and the
derived node, a registered listener of the upstream, runs
`handle_parameter_changed`. -/
def tpUpstreamAssign (s : TPState) (t : Tensor) : TPState × List Nat × Nat :=
  tpHandleParameterChanged { s with xTensor := t }

/-- Run a sequence of upstream mutations, summing the transform
applications performed. -/
def tpRunUpstreams (s : TPState) : List Tensor → TPState × Nat
  | [] => (s, 0)
  | t :: ts =>
    let r1 := tpUpstreamAssign s t
    let r2 := tpRunUpstreams r1.1 ts
    (r2.1, r1.2.2 + r2.2)

/-- Claim C3: an upstream change only sets the dirty flag and re-fires
the node's own notification, applying the transform zero times and
leaving the cache untouched; a read (of `tensor`, or a call) while dirty
recomputes exactly once and clears the flag; any number of upstream
mutations followed by one read performs at most one transform
application, and a read immediately after a read performs none. -/
theorem C3_lazy_derived_invalidation (f : Tensor → Tensor)
    (jac : Tensor → Tensor → Tensor) (s : TPState) (t : Tensor) :
    (tpUpstreamAssign s t =
      ({ s with xTensor := t, need_update := true }, s.listeners, 0)) ∧
    (s.need_update = true →
      tpReadTensor f s =
        ({ s with cached := f s.xTensor, need_update := false }, f s.xTensor, 1) ∧
      tpCall f jac s =
        ({ s with cached := f s.xTensor, need_update := false },
          jac s.xTensor (f s.xTensor), 1)) ∧
    (∀ ts, (tpRunUpstreams s ts).2 = 0 ∧
      (tpReadTensor f (tpRunUpstreams s ts).1).2.2 ≤ 1) ∧
    (tpReadTensor f (tpReadTensor f s).1).2.2 = 0 := by
  refine ⟨rfl, ?_, ?_, ?_⟩
  · intro h
    constructor <;> simp [tpReadTensor, tpCall, tpApplyTransform, h]
  · intro ts
    constructor
    · induction ts generalizing s with
      | nil => rfl
      | cons t ts ih =>
        simpa [tpRunUpstreams, tpUpstreamAssign, tpHandleParameterChanged] using ih _
    · rcases h2 : (tpRunUpstreams s ts).1.need_update with _ | _ <;>
        simp [tpReadTensor, h2]
  · rcases h : s.need_update with _ | _ <;> simp [tpReadTensor, tpApplyTransform, h]

/-- Sample transform used by concrete witnesses: prepend a dimension. -/
def fW : Tensor → Tensor := fun t => { t with shape := 2 :: t.shape }

/-- Sample jacobian function used by concrete witnesses. -/
def jacW : Tensor → Tensor → Tensor := fun _ y => y

theorem C3_witness :
    tpReadTensor fW ⟨tA, tB, true, [4]⟩ =
      (⟨tA, fW tA, false, [4]⟩, fW tA, 1) :=
  ((C3_lazy_derived_invalidation fW jacW ⟨tA, tB, true, [4]⟩ tA).2.1 rfl).1

/-- The upstream `x` of a `TransformedParameter`: either a single
`Parameter` or a Python list of Parameters. -/
inductive Upstream : Type where
  | single (p : Parameter)
  | multi (ps : List Parameter)
deriving Repr, DecidableEq

/-- A `TransformedParameter` together with its upstream, as needed for
`update`: id, upstream `x`, cached `_tensor`, `need_update` flag, own
listeners.  By construction (`__init__` calls `add_parameter` on each
upstream parameter) the node is a registered listener of its
upstream. -/
structure TransParam : Type where
  id : Option String
  x : Upstream
  cached : Tensor
  need_update : Bool
  listeners : List Nat
deriving Repr, DecidableEq

/-- Source: `TransformedParameter.update(value)`: run `self.x.update(value)`,
then `self._tensor = self.transform(self.x.tensor)`.  When `x` is a
Python list of parameters, `self.x.update(value)` raises
`AttributeError` (a `list` has no method `update`).  When `x` is a
single parameter, its `update` assigns through the `tensor` setter iff
its id is a key of `value`; the setter fires, so the derived node (a
registered listener) sets `need_update` and re-fires to its own
listeners (returned in the second component); afterwards the cache is
eagerly recomputed from the current upstream tensor. -/
def TransParam.update (f : Tensor → Tensor) (d : TransParam)
    (value : List (String × Tensor)) : Except String (TransParam × List Nat) :=
  match d.x with
  | .single p =>
    match p.id.bind (fun i => value.lookup i) with
    | some t =>
      let p' : Parameter := (p.tensor_set t).1
      .ok ({ d with x := .single p', need_update := true, cached := f p'.tensor },
        d.listeners)
    | none => .ok ({ d with cached := f p.tensor }, [])
  | .multi _ =>
    .error "AttributeError: \x27list\x27 object has no attribute \x27update\x27"

/-- Sample parameters used by concrete evaluations. -/
def p1W : Parameter := ⟨some "p1", tA, [0]⟩

def p2W : Parameter := ⟨some "p2", tA, [0]⟩

/-- Claim C8 (code bug): `update` on a `TransformedParameter` whose
upstream is a list of parameters raises `AttributeError` instead of
forwarding to each upstream's `update`, because `self.x.update(value)`
is invoked on the Python list itself; with a single upstream it does
forward and eagerly recomputes the cached tensor. -/
theorem C8_transformed_update_crashes_on_list_upstream :
    TransParam.update fW ⟨some "d", .multi [p1W, p2W], tA, false, [9]⟩ [("p1", tB)] =
      .error "AttributeError: \x27list\x27 object has no attribute \x27update\x27" ∧
    TransParam.update fW ⟨some "d", .single p1W, tA, false, [9]⟩ [("p1", tB)] =
      .ok (⟨some "d", .single ⟨some "p1", tB, [0]⟩, fW tB, true, [9]⟩, [9]) := by
  constructor <;> rfl

/-- The opening-brace character of a range reference. -/
def brOpen : Char := Char.ofNat 123

/-- The closing-brace character of a range reference. -/
def brClose : Char := Char.ofNat 125

/-- Split a character list at every separator matched by `p`, keeping
empty groups, as Python `str.split(sep)` does for a one-character
separator. -/
def splitChars (p : Char → Bool) : List Char → List (List Char)
  | [] => [[]]
  | c :: cs =>
    let r := splitChars p cs
    if p c then [] :: r
    else
      match r with
      | g :: gs => (c :: g) :: gs
      | [] => [[c]]

/-- Python `s.split(sep)` for a one-character separator. -/
def pySplitOnChar (c : Char) (s : String) : List String :=
  (splitChars (fun d => d == c) s.data).map (fun l => ⟨l⟩)

/-- The decimal value of a nonempty all-digit character list. -/
def digitsVal (ds : List Char) : Option Nat :=
  match ds with
  | [] => none
  | _ =>
    if ds.all Char.isDigit then
      some (ds.foldl (fun n c => 10 * n + (c.toNat - 48)) 0)
    else none

/-- Python `int(s)` on a decimal string: optional surrounding whitespace,
an optional sign, then one or more digits; `none` where Python raises
`ValueError`.  (Underscore digit separators are not modelled.) -/
def pyInt (s : String) : Option Int :=
  let cs := ((s.data.dropWhile Char.isWhitespace).reverse.dropWhile
    Char.isWhitespace).reverse
  match cs with
  | '-' :: ds => (digitsVal ds).map (fun n => -(n : Int))
  | '+' :: ds => (digitsVal ds).map (fun n => (n : Int))
  | ds => (digitsVal ds).map (fun n => (n : Int))

/-- Python `range(start, stop)` as an ascending list. -/
def intRangeList (start stop : Int) : List Int :=
  (List.range (stop - start).toNat).map (fun (i : Nat) => start + (i : Int))

/-- The registry `dic`: a Python dict from id string to constructed
object, modelled as an association list. -/
abbrev Registry (α : Type) := List (String × α)

/-- Source: `dic[k] = v` on a Python dict: update in place, or append a new
binding in insertion order. -/
def regInsert {α : Type} (dic : Registry α) (k : String) (v : α) : Registry α :=
  if dic.any (fun kv => kv.1 == k) then
    dic.map (fun kv => if kv.1 == k then (k, v) else kv)
  else dic ++ [(k, v)]

/-- The `JSONParseError` message for an unresolvable reference. -/
def notFoundMsg (s : String) : String :=
  "Object with ID \x60" ++ s ++ "\x27 not found"

/-- The `JSONParseError` message for a duplicated id. -/
def existsMsg (s : String) : String :=
  "Object with ID \x60" ++ s ++ "\x27 already exists"

/-- The `JSONParseError` message for a mapping without a type. -/
def noTypeMsg (s : String) : String :=
  "Object with ID \x60" ++ s ++ "\x27 does not have a type"

/-- Python `indices.rstrip('}')`. -/
def rstripBraces (s : String) : String :=
  ⟨(s.data.reverse.dropWhile (fun c => c == brClose)).reverse⟩

/-- The body of the range-reference loop of `process_object`:
`for i in range(start, stop): obj = dic[stem + str(i)]`.  Each index is
looked up in ascending order; a missing id raises `JSONParseError`
naming the full reference string `refStr`; only the most recent
successful lookup is retained in `obj`, and an empty range leaves `obj`
unbound. -/
def rangeLast {α : Type} (dic : Registry α) (stem : String) (idxs : List Int)
    (refStr : String) : Except String α :=
  match idxs.foldl
    (fun (acc : Except String (Option α)) i =>
      match acc with
      | .error e => .error e
      | .ok _ =>
        match dic.lookup (stem ++ toString i) with
        | some v => .ok (some v)
        | none => .error (notFoundMsg refStr))
    (Except.ok none) with
  | .ok (some v) => .ok v
  | .ok none =>
    .error "UnboundLocalError: local variable \x27obj\x27 referenced before assignment"
  | .error e => .error e

/-- Source: `process_object(data, dic)` from `utils.py`.  `construct` models the
dynamic dispatch `get_class(data['type']).from_json_safe(data, dic)`: it
receives the type name, the mapping and the registry, and returns the
registry as the factory leaves it (factories may register nested
objects) together with the constructed object or a raised error; a
`get_class` resolution failure is modelled by the oracle returning an
error.  The function returns the registry as left by the call and the
result; where Python raises before touching the registry, the input
registry is returned unchanged.  A string containing a brace is parsed
as a range reference `stem{start:stop}` and resolved by `rangeLast`;
any other string is a direct registry lookup; a mapping is checked for a
fresh id and a type and then dispatched; any other document shape is a
structural error. -/
def process_object {α : Type}
    (construct : String → JsonVal → Registry α → Registry α × Except String α)
    (data : JsonVal) (dic : Registry α) : Registry α × Except String α :=
  match data with
  | .str s =>
    if s.data.any (fun c => c == brOpen) then
      match pySplitOnChar brOpen s with
      | [stem, indices] =>
        match pySplitOnChar ':' (rstripBraces indices) with
        | [a, b] =>
          match pyInt a, pyInt b with
          | some start, some stop =>
            (dic, rangeLast dic stem (intRangeList start stop) s)
          | _, _ => (dic, .error "ValueError: invalid literal for int()")
        | _ => (dic, .error "ValueError: not enough values to unpack")
      | _ => (dic, .error "ValueError: values to unpack")
    else
      match dic.lookup s with
      | some obj => (dic, .ok obj)
      | none => (dic, .error (notFoundMsg s))
  | .obj _ =>
    match getField data "id" with
    | some (.str id_) =>
      if (dic.lookup id_).isSome then (dic, .error (existsMsg id_))
      else if hasField data "type" then
        match getField data "type" with
        | some (.str ty) =>
          let rc := construct ty data dic
          match rc.2 with
          | .ok obj => (regInsert rc.1 id_ obj, .ok obj)
          | .error e => (rc.1, .error e)
        | _ => (dic, .error "TypeError: type name is not a string")
      else (dic, .error (noTypeMsg id_))
    | some _ => (dic, .error "TypeError: id is not a string")
    | none => (dic, .error "KeyError: \x27id\x27")
  | _ => (dic, .error "Object is not valid (should be str or object)")

/-- A dispatch oracle that constructs nothing, used by concrete
evaluations whose inputs never reach construction. -/
def constructNone : String → JsonVal → Registry Nat → Registry Nat × Except String Nat :=
  fun _ _ dic => (dic, .error "no constructor")

/-- Claim C1 (code bug): resolving the range reference `x{0:3}` against a
registry registering `x0, x1, x2` looks every id up but returns only the
entry for the last index (`x2`), not the ordered list of all three; and
when `x1` is missing, the not-found error names the whole reference
string `x{0:3}`, not the missing id `x1`. -/
theorem C1_range_reference_returns_only_last_entry :
    process_object constructNone (.str "x\x7b0:3\x7d")
      [("x0", 10), ("x1", 11), ("x2", 12)] =
      ([("x0", 10), ("x1", 11), ("x2", 12)], .ok 12) ∧
    process_object constructNone (.str "x\x7b0:3\x7d") [("x0", 10), ("x2", 12)] =
      ([("x0", 10), ("x2", 12)], .error (notFoundMsg "x\x7b0:3\x7d")) := by
  constructor <;> rfl

/-- Claim C9: resolving a mapping whose id is already present in the
registry fails with an "already exists" error naming the id, for every
possible constructor dispatch (so before any construction is attempted),
and returns the registry unchanged. -/
theorem C9_duplicate_id_rejected_before_construction {α : Type}
    (construct : String → JsonVal → Registry α → Registry α × Except String α)
    (fs : List (String × JsonVal)) (id_ : String) (dic : Registry α)
    (hid : getField (.obj fs) "id" = some (.str id_))
    (hdup : (dic.lookup id_).isSome = true) :
    process_object construct (.obj fs) dic = (dic, .error (existsMsg id_)) := by
  simp [process_object, hid, hdup]

theorem C9_witness :
    process_object constructNone
      (.obj [("id", .str "a"), ("type", .str "T")]) [("a", 7)] =
      ([("a", 7)], .error (existsMsg "a")) :=
  C9_duplicate_id_rejected_before_construction constructNone
    [("id", .str "a"), ("type", .str "T")] "a" [("a", 7)] rfl rfl

/-- Python `float(p)` on a plain decimal literal: optional surrounding
whitespace, an optional sign, digits with an optional fractional part.
Scientific notation, `inf`/`nan` and underscore separators are not
modelled. -/
def pyFloat (s : String) : Option ℚ :=
  let cs := ((s.data.dropWhile Char.isWhitespace).reverse.dropWhile
    Char.isWhitespace).reverse
  let dval : List Char → ℚ := fun l =>
    ((l.foldl (fun n c => 10 * n + (c.toNat - 48)) 0 : ℕ) : ℚ)
  let core : List Char → Option ℚ := fun ds =>
    match splitChars (fun c => c == '.') ds with
    | [ip] => (digitsVal ip).map (fun n => (n : ℚ))
    | [ip, fp] =>
      if (ip.all Char.isDigit ∧ fp.all Char.isDigit) ∧ (ip ≠ [] ∨ fp ≠ []) then
        some (dval ip + dval fp / (10 : ℚ) ^ fp.length)
      else none
    | _ => none
  match cs with
  | '-' :: r => (core r).map (fun q => -q)
  | '+' :: r => core r
  | r => core r

/-- Source: `list(filter(None, re.split(r'[(),]', distribution)))`: split at every
parenthesis or comma and drop the empty groups. -/
def splitDistribution (s : String) : List String :=
  ((splitChars (fun c => c == '(' || c == ')' || c == ',') s.data).filter
    (fun g => g ≠ [])).map (fun l => ⟨l⟩)

/-- The one-character string `name[0]` (the groups produced by
`splitDistribution` are nonempty, so Python's indexing succeeds). -/
def strHead (s : String) : String :=
  match s.data with
  | [] => ""
  | c :: _ => ⟨[c]⟩

/-- Source: `tensor_rand(distribution, dtype, shape)` from `utils.py`: parse the
distribution string into a name and float arguments, then dispatch.  The
source compares `name == 'normal'` for the first branch but
`name[0] == 'log_normal'`, `name[0] == 'uniform'`, `name[0] == 'random'`
and `name[0] == 'bernoulli'` for the others — `name[0]` is the first
*character* of the name, so those four comparisons are never true and
every name other than `normal` falls through to the raise.  The filled
tensor records the distribution symbolically, the numeric stream of the
torch RNG being outside this embedding; argument-count checking done
inside torch (`normal_(*params)` and friends) is likewise not
modelled. -/
def tensor_rand (distribution : String) (dtype : String) (shape : List Nat) :
    Except String Tensor :=
  match splitDistribution distribution with
  | [] => .error "IndexError: list index out of range"
  | name :: rest =>
    match rest.mapM (fun p =>
      match pyFloat p with
      | some q => Except.ok q
      | none =>
        Except.error ("ValueError: could not convert string to float: " ++ p)) with
    | .error e => .error e
    | .ok params =>
      if name = "normal" then
        .ok ⟨shape, dtype, .randFill "normal" params, false⟩
      else if strHead name = "log_normal" then
        .ok ⟨shape, dtype, .randFill "log_normal" params, false⟩
      else if strHead name = "uniform" then
        .ok ⟨shape, dtype, .randFill "uniform" params, false⟩
      else if strHead name = "random" then
        .ok ⟨shape, dtype, .randFill "random" params, false⟩
      else if strHead name = "bernoulli" then
        .ok ⟨shape, dtype, .randFill "bernoulli" params, false⟩
      else
        .error (name ++ " is not a valid distribution to initialize tensor. input: "
          ++ distribution)

/-- Claim C4 (code bug): of the five documented distribution names only
`normal` is accepted; `log_normal`, `uniform`, `random` and `bernoulli`
all raise "... is not a valid distribution ...", because the source
compares the first character `name[0]` (never equal to a multi-character
name) instead of `name`.  An unrecognized name also raises. -/
theorem C4_tensor_rand_accepts_only_normal :
    tensor_rand "normal(1,2)" "torch.float64" [1, 2] =
      .ok ⟨[1, 2], "torch.float64", .randFill "normal" [((1 : ℕ) : ℚ), ((2 : ℕ) : ℚ)], false⟩ ∧
    tensor_rand "log_normal" "torch.float64" [2] =
      .error
        "log_normal is not a valid distribution to initialize tensor. input: log_normal" ∧
    tensor_rand "uniform(0.0,1.0)" "torch.float64" [2] =
      .error
        "uniform is not a valid distribution to initialize tensor. input: uniform(0.0,1.0)" ∧
    tensor_rand "random" "torch.float64" [2] =
      .error "random is not a valid distribution to initialize tensor. input: random" ∧
    tensor_rand "bernoulli(0.5)" "torch.float64" [2] =
      .error
        "bernoulli is not a valid distribution to initialize tensor. input: bernoulli(0.5)" ∧
    tensor_rand "gamma" "torch.float64" [2] =
      .error "gamma is not a valid distribution to initialize tensor. input: gamma" := by
  refine ⟨rfl, rfl, rfl, rfl, rfl, rfl⟩

/-- The torch dtype attributes reachable by `get_class('torch.<name>')`. -/
def torchDtypes : List String :=
  ["torch.float64", "torch.float32", "torch.float16", "torch.bfloat16",
   "torch.int64", "torch.int32", "torch.int16", "torch.int8", "torch.uint8",
   "torch.bool", "torch.complex64", "torch.complex128"]

/-- Source: `get_class(data.get('dtype', 'torch.float64'))`: the default dtype or
the named one; an unknown name raises out of `get_class`. -/
def resolveDtype (data : JsonVal) : Except String String :=
  match getField data "dtype" with
  | none => .ok "torch.float64"
  | some (.str s) =>
    if s ∈ torchDtypes then .ok s
    else .error ("AttributeError: module \x27torch\x27 has no attribute " ++ s)
  | some _ => .error "TypeError: dtype is not a string"

/-- Number of elements of a tensor of the given shape. -/
def prodL (l : List Nat) : Nat := l.foldl (fun a b => a * b) 1

/-- Source: `torch.full(size, value, dtype=dtype)`. -/
def torchFull (size : List Nat) (q : ℚ) (dtype : String) : Tensor :=
  ⟨size, dtype, .lits (List.replicate (prodL size) q), false⟩

/-- Source: `torch.full_like(t, value, dtype=dtype)` (also covers
`zeros_like`/`ones_like` with value 0/1). -/
def torchFullLike (t : Tensor) (q : ℚ) (dtype : String) : Tensor :=
  ⟨t.shape, dtype, .lits (List.replicate (prodL t.shape) q), false⟩

/-- Source: `torch.eye(n, dtype=dtype)`: the flattened identity matrix. -/
def torchEye (n : Nat) (dtype : String) : Tensor :=
  ⟨[n, n], dtype,
    .lits ((List.range (n * n)).map (fun i => if i % (n + 1) = 0 then 1 else 0)),
    false⟩

/-- A torch size argument: a sequence of nonnegative integers. -/
def asSizeList : JsonVal → Except String (List Nat)
  | .arr xs =>
    xs.mapM (fun x =>
      match x with
      | .num q =>
        if q.den = 1 ∧ 0 ≤ q.num then Except.ok q.num.toNat
        else Except.error "TypeError: size entries must be nonnegative ints"
      | _ => Except.error "TypeError: size entries must be ints")
  | _ => .error "TypeError: size must be a sequence"

/-- A flat list of numeric literal values. -/
def asNumList : JsonVal → Except String (List ℚ)
  | .arr xs =>
    xs.mapM (fun x =>
      match x with
      | .num q => Except.ok q
      | _ => Except.error "TypeError: tensor values must be numbers")
  | _ => .error "TypeError: tensor values must be a sequence"

/-- Python truthiness of a JSON value, for `if 'nn' in data and data['nn']`. -/
def pyTruthy : JsonVal → Bool
  | .bool b => b
  | .num q => if q = 0 then false else true
  | .str s => if s = "" then false else true
  | .arr xs => if xs.isEmpty then false else true
  | .obj fs => if fs.isEmpty then false else true

/-- Source: `np.repeat(values, k)` for a scalar integer count: each element is
repeated `k` times consecutively (element-wise, not cyclic tiling). -/
def npRepeat (vs : List ℚ) (k : Nat) : List ℚ :=
  (vs.map (fun v => List.replicate k v)).flatten

/-- Source: `Parameter.from_json(data, dic)` from `model.py`.  The construction
directives are tried in the source's order: `full_like`, `full`,
`zeros_like`, `zeros`, `ones_like`, `ones`, `eye`, and finally literal
`tensor` values (with optional `dimension`).  `construct` is the
dispatch oracle threaded through to the `process_object` calls that
resolve the `*_like` references (those factories may extend the
registry, which is threaded and returned).  In the `dimension` path the
source computes `np.repeat(values, dimension / len(values) + 1)` with
true division; the float repeat count is truncated to
`dimension // len(values) + 1` at the numpy boundary, and `np.repeat`
repeats element-wise.  `nn` wraps the tensor in `nn.Parameter`, setting
`requires_grad`. -/
def Parameter.from_json
    (construct : String → JsonVal → Registry Parameter →
      Registry Parameter × Except String Parameter)
    (data : JsonVal) (dic : Registry Parameter) :
    Registry Parameter × Except String Parameter :=
  let isNN : Bool := match getField data "nn" with
    | some v => pyTruthy v
    | none => false
  let finish : Registry Parameter → Except String Tensor →
      Registry Parameter × Except String Parameter := fun dic' rt =>
    match rt with
    | .error e => (dic', .error e)
    | .ok t =>
      match getField data "id" with
      | some (.str id_) =>
        (dic', .ok ⟨some id_, if isNN then { t with requiresGrad := true } else t, []⟩)
      | some _ => (dic', .error "TypeError: id is not a string")
      | none => (dic', .error "KeyError: \x27id\x27")
  match resolveDtype data with
  | .error e => (dic, .error e)
  | .ok dtype0 =>
    match getField data "full_like" with
    | some ref =>
      let pr := process_object construct ref dic
      match pr.2 with
      | .error e => (pr.1, .error e)
      | .ok input_param =>
        let dtype := if hasField data "dtype" then dtype0 else input_param.tensor.dtype
        match getField data "rand" with
        | some (.str d) =>
          finish pr.1 (tensor_rand d input_param.tensor.dtype input_param.tensor.shape)
        | some _ => (pr.1, .error "TypeError: rand is not a string")
        | none =>
          match getField data "tensor" with
          | some (.num q) => finish pr.1 (.ok (torchFullLike input_param.tensor q dtype))
          | some _ => (pr.1, .error "TypeError: fill value must be a number")
          | none => (pr.1, .error "KeyError: \x27tensor\x27")
    | none =>
    match getField data "full" with
    | some sizeJ =>
      (match asSizeList sizeJ with
      | .error e => (dic, .error e)
      | .ok size =>
        match getField data "rand" with
        | some (.str d) => finish dic (tensor_rand d dtype0 size)
        | some _ => (dic, .error "TypeError: rand is not a string")
        | none =>
          match getField data "tensor" with
          | some (.num q) => finish dic (.ok (torchFull size q dtype0))
          | some _ => (dic, .error "TypeError: fill value must be a number")
          | none => (dic, .error "KeyError: \x27tensor\x27"))
    | none =>
    match getField data "zeros_like" with
    | some ref =>
      let pr := process_object construct ref dic
      (match pr.2 with
      | .error e => (pr.1, .error e)
      | .ok input_param =>
        let dtype := if hasField data "dtype" then dtype0 else input_param.tensor.dtype
        finish pr.1 (.ok (torchFullLike input_param.tensor 0 dtype)))
    | none =>
    match getField data "zeros" with
    | some sizeJ =>
      (match asSizeList sizeJ with
      | .error e => (dic, .error e)
      | .ok size => finish dic (.ok (torchFull size 0 dtype0)))
    | none =>
    match getField data "ones_like" with
    | some ref =>
      let pr := process_object construct ref dic
      (match pr.2 with
      | .error e => (pr.1, .error e)
      | .ok input_param =>
        let dtype := if hasField data "dtype" then dtype0 else input_param.tensor.dtype
        finish pr.1 (.ok (torchFullLike input_param.tensor 1 dtype)))
    | none =>
    match getField data "ones" with
    | some sizeJ =>
      (match asSizeList sizeJ with
      | .error e => (dic, .error e)
      | .ok size => finish dic (.ok (torchFull size 1 dtype0)))
    | none =>
    match getField data "eye" with
    | some (.num nq) =>
      if nq.den = 1 ∧ 0 ≤ nq.num then
        finish dic (.ok (torchEye nq.num.toNat dtype0))
      else (dic, .error "TypeError: eye size must be a nonnegative int")
    | some _ => (dic, .error "TypeError: eye size must be an int")
    | none =>
    match getField data "tensor" with
    | some (.num q) =>
      (match getField data "dimension" with
      | some _ => (dic, .error "TypeError: object of type \x27float\x27 has no len()")
      | none => finish dic (.ok ⟨[], dtype0, .lits [q], false⟩))
    | some (.arr xs) =>
      (match asNumList (.arr xs) with
      | .error e => (dic, .error e)
      | .ok vs =>
        match getField data "dimension" with
        | none => finish dic (.ok ⟨[vs.length], dtype0, .lits vs, false⟩)
        | some (.num dq) =>
          if vs.length = 0 then (dic, .error "ZeroDivisionError: division by zero")
          else if dq.den = 1 ∧ 0 ≤ dq.num then
            let d := dq.num.toNat
            let out := (npRepeat vs (d / vs.length + 1)).take d
            finish dic (.ok ⟨[out.length], dtype0, .lits out, false⟩)
          else (dic, .error "TypeError: dimension must be a nonnegative int")
        | some _ => (dic, .error "TypeError: dimension must be a number"))
    | some _ => (dic, .error "TypeError: tensor values must be numbers")
    | none => (dic, .error "KeyError: \x27tensor\x27")

/-- A dispatch oracle over Parameter registries that constructs nothing,
used by concrete evaluations that never reach construction. -/
def constructNoneP : String → JsonVal → Registry Parameter →
    Registry Parameter × Except String Parameter :=
  fun _ _ dic => (dic, .error "no constructor")

/-- A registered parameter of shape `[2]`, referenced by `zeros_like`. -/
def pQ : Parameter := ⟨some "q", ⟨[2], "torch.float64", .lits [0, 0], false⟩, []⟩

/-- The claim's own example mapping: both `zeros_like` (group a) and
`full` (group b) present. -/
def dataC6 : JsonVal :=
  .obj [("id", .str "p"), ("type", .str "Parameter"),
    ("zeros_like", .str "q"), ("full", .arr [.num 3]), ("tensor", .num 5)]

/-- Counterexample to claim C6 as stated: on a mapping carrying both
`zeros_like` and `full`, the constructed tensor is the `full` one (shape
`[3]`, filled with 5), not the `zeros_like` one (shape `[2]` copied from
the referenced parameter): the group-(b) directive, not the group-(a)
one, determines the tensor. -/
theorem C6_counterexample :
    Parameter.from_json constructNoneP dataC6 [("q", pQ)] =
      ([("q", pQ)],
        .ok ⟨some "p", ⟨[3], "torch.float64", .lits [5, 5, 5], false⟩, []⟩) ∧
    ([3] : List Nat) ≠ pQ.tensor.shape := by
  exact ⟨rfl, by decide⟩

/-- Claim C6 (amended): the priority interleaves the two groups in the
source order `full_like`, `full`, `zeros_like`, `zeros`, `ones_like`,
`ones`, `eye`: (a) a well-formed `full_like` determines the tensor no
matter which other directive keys are present; (b) with `full_like`
absent, a well-formed `full` determines the tensor even when
`zeros_like` or `ones_like` is present. -/
theorem C6_interleaved_directive_priority
    (construct : String → JsonVal → Registry Parameter →
      Registry Parameter × Except String Parameter)
    (data : JsonVal) (dic dic1 : Registry Parameter) (id_ : String) (q : ℚ)
    (hid : getField data "id" = some (.str id_))
    (hnn : getField data "nn" = none)
    (hdt : getField data "dtype" = none)
    (hr : getField data "rand" = none)
    (ht : getField data "tensor" = some (.num q)) :
    (∀ ref ip, getField data "full_like" = some ref →
      process_object construct ref dic = (dic1, .ok ip) →
      Parameter.from_json construct data dic =
        (dic1, .ok ⟨some id_, torchFullLike ip.tensor q ip.tensor.dtype, []⟩)) ∧
    (∀ sizeJ size, getField data "full_like" = none →
      getField data "full" = some sizeJ → asSizeList sizeJ = .ok size →
      Parameter.from_json construct data dic =
        (dic, .ok ⟨some id_, torchFull size q "torch.float64", []⟩)) := by
  constructor
  · intro ref ip hfl hpr
    simp [Parameter.from_json, resolveDtype, hasField, hid, hnn, hdt, hr, ht, hfl, hpr]
  · intro sizeJ size hfl hf hsz
    simp [Parameter.from_json, resolveDtype, hasField, hid, hnn, hdt, hr, ht, hfl, hf, hsz]

theorem C6_witness :
    Parameter.from_json constructNoneP dataC6 [("q", pQ)] =
      ([("q", pQ)], .ok ⟨some "p", torchFull [3] 5 "torch.float64", []⟩) :=
  (C6_interleaved_directive_priority constructNoneP dataC6 [("q", pQ)] [("q", pQ)]
    "p" 5 rfl rfl rfl rfl rfl).2 (.arr [.num 3]) [3] rfl rfl rfl

/-- Source: `np.repeat` produces `vs.length * k` elements. -/
theorem npRepeat_length (vs : List ℚ) (k : Nat) :
    (npRepeat vs k).length = vs.length * k := by
  induction vs with
  | nil => simp [npRepeat]
  | cons v vs ih =>
    simp only [npRepeat, List.map_cons, List.flatten_cons, List.length_append,
      List.length_replicate, List.length_cons, Nat.succ_mul] at ih ⊢
    omega

/-- Element `j` of `np.repeat(vs, k)` is element `j / k` of `vs`: each
source element occupies a block of `k` consecutive positions. -/
theorem npRepeat_getD (vs : List ℚ) (k j : Nat) (hj : j < vs.length * k) :
    (npRepeat vs k).getD j 0 = vs.getD (j / k) 0 := by
  induction vs generalizing j with
  | nil => simp at hj
  | cons v vs ih =>
    have hk : 0 < k := by
      rcases Nat.eq_zero_or_pos k with h | h
      · subst h; simp at hj
      · exact h
    have hsplit : npRepeat (v :: vs) k = List.replicate k v ++ npRepeat vs k := by
      simp [npRepeat]
    rw [hsplit]
    simp only [List.length_cons, Nat.succ_mul] at hj
    by_cases h : j < k
    · rw [List.getD_append _ _ _ _ (by simpa using h)]
      simp [Nat.div_eq_of_lt h, List.getD_eq_getElem?_getD, List.getElem?_replicate, h]
    · have hkj : k ≤ j := Nat.le_of_not_lt h
      rw [List.getD_append_right _ _ _ _ (by simpa using hkj)]
      simp only [List.length_replicate]
      rw [ih (j - k) (by omega)]
      rw [Nat.div_eq_sub_div hk hkj]
      simp

/-- Modelled from the spec's words, for comparison only: the first `d`
elements of the cyclic repetition of the literal value sequence
(`values[i mod L]` at position `i`). -/
def specCyclicTake (d : Nat) (vs : List ℚ) : List ℚ :=
  (List.range d).map (fun i => vs.getD (i % vs.length) 0)

/-- The claim's literal-values-with-dimension mapping: values `[1, 2]`,
requested dimension 3. -/
def dataC7 : JsonVal :=
  .obj [("id", .str "p"), ("type", .str "Parameter"),
    ("tensor", .arr [.num 1, .num 2]), ("dimension", .num ((3 : ℕ) : ℚ))]

/-- Counterexample to claim C7 as stated: for literal values `[1, 2]` and
dimension 3, the constructed tensor is `[1, 1, 2]` (`np.repeat` repeats
each element consecutively), not the cyclic repetition `[1, 2, 1]` the
claim prescribes. -/
theorem C7_counterexample :
    Parameter.from_json constructNoneP dataC7 [] =
      ([], .ok ⟨some "p", ⟨[3], "torch.float64", .lits [1, 1, 2], false⟩, []⟩) ∧
    ([1, 1, 2] : List ℚ) ≠ specCyclicTake 3 [1, 2] := by
  exact ⟨rfl, by decide⟩

/-- Claim C7 (amended): with literal `tensor` values of length `L > 0`
and a `dimension` directive `d`, the constructed tensor has length `d`
and equals the first `d` elements of the element-wise repetition in
which each literal value is repeated `d / L + 1` times consecutively
(`np.repeat` semantics with the float repeat count `d/L + 1` truncated
at the numpy boundary): entry `j` is `values[j / (d / L + 1)]`, not
`values[j mod L]`. -/
theorem C7_dimension_uses_elementwise_repeat
    (construct : String → JsonVal → Registry Parameter →
      Registry Parameter × Except String Parameter)
    (data : JsonVal) (dic : Registry Parameter) (id_ : String) (dt : String)
    (tj : List JsonVal) (vs : List ℚ) (d : Nat)
    (hnone : getField data "full_like" = none ∧ getField data "full" = none ∧
      getField data "zeros_like" = none ∧ getField data "zeros" = none ∧
      getField data "ones_like" = none ∧ getField data "ones" = none ∧
      getField data "eye" = none)
    (hid : getField data "id" = some (.str id_))
    (hnn : getField data "nn" = none)
    (hdt : resolveDtype data = .ok dt)
    (ht : getField data "tensor" = some (.arr tj))
    (hvs : asNumList (.arr tj) = .ok vs)
    (hL : vs ≠ [])
    (hd : getField data "dimension" = some (.num ((d : ℕ) : ℚ))) :
    Parameter.from_json construct data dic =
      (dic, .ok ⟨some id_,
        ⟨[d], dt, .lits ((npRepeat vs (d / vs.length + 1)).take d), false⟩, []⟩) ∧
    ((npRepeat vs (d / vs.length + 1)).take d).length = d ∧
    (∀ j, j < d →
      ((npRepeat vs (d / vs.length + 1)).take d).getD j 0 =
        vs.getD (j / (d / vs.length + 1)) 0) := by
  obtain ⟨h1, h2, h3, h4, h5, h6, h7⟩ := hnone
  have hLpos : 0 < vs.length := List.length_pos.mpr hL
  have hdle : d < vs.length * (d / vs.length + 1) := by
    have hmod := Nat.div_add_mod d vs.length
    have hlt := Nat.mod_lt d hLpos
    calc d = vs.length * (d / vs.length) + d % vs.length := hmod.symm
    _ < vs.length * (d / vs.length) + vs.length := by omega
    _ = vs.length * (d / vs.length + 1) := by ring
  have hlen : ((npRepeat vs (d / vs.length + 1)).take d).length = d := by
    rw [List.length_take, npRepeat_length]
    omega
  refine ⟨?_, hlen, ?_⟩
  · have hL0 : (vs.length = 0) = False := by simp [Nat.pos_iff_ne_zero.mp hLpos]
    simp only [Parameter.from_json, hdt, h1, h2, h3, h4, h5, h6, h7, ht, hvs, hd,
      hid, hnn, hL0, Rat.den_natCast, Rat.num_natCast, Int.toNat_natCast,
      Int.natCast_nonneg, and_true, if_true, if_false, hlen]
    simp [Nat.pos_iff_ne_zero.mp hLpos]
  · intro j hj
    have hjq : ((npRepeat vs (d / vs.length + 1)).take d).getD j 0 =
        (npRepeat vs (d / vs.length + 1)).getD j 0 := by
      simp only [List.getD_eq_getElem?_getD]
      rw [List.getElem?_take_of_lt hj]
    rw [hjq, npRepeat_getD]
    omega

theorem C7_witness :
    Parameter.from_json constructNoneP dataC7 [] =
      ([], .ok ⟨some "p",
        ⟨[3], "torch.float64", .lits ((npRepeat [1, 2] 2).take 3), false⟩, []⟩) :=
  (C7_dimension_uses_elementwise_repeat constructNoneP dataC7 [] "p" "torch.float64"
    [.num 1, .num 2] [1, 2] 3 ⟨rfl, rfl, rfl, rfl, rfl, rfl, rfl⟩ rfl rfl rfl rfl rfl
    (by decide) rfl).1

/-- Field lookup in a raw mapping field list (`obj[key]`). -/
def getF (fs : List (String × JsonVal)) (k : String) : Option JsonVal :=
  fs.lookup k

/-- Source: `t.endswith('Plate')`. -/
def endsWithPlate (t : String) : Bool :=
  "Plate".data.isSuffixOf t.data

/-- Source: `'type' in obj and obj['type'].endswith('Plate')`; a non-string
`type` value makes Python's `endswith` attribute access raise. -/
def plateCheck (fs : List (String × JsonVal)) : Except String Bool :=
  match getF fs "type" with
  | some (.str t) => .ok (endsWithPlate t)
  | some _ => .error "AttributeError: \x27type\x27 value has no attribute endswith"
  | none => .ok false

/-- Source: `int(p)` raising `ValueError`, as used in `map(int, ...)`. -/
def pyIntE (p : String) : Except String Int :=
  match pyInt p with
  | some n => .ok n
  | none => .error ("ValueError: invalid literal for int(): " ++ p)

/-- Python `range(a, b, s)` with a nonzero step, as a list. -/
def pyRangeStep (a b s : Int) : Except String (List Int) :=
  if s = 0 then .error "ValueError: range() arg 3 must not be zero"
  else if 0 < s then
    .ok ((List.range (((b - a) + s - 1) / s).toNat).map (fun (i : Nat) => a + s * (i : Int)))
  else
    .ok ((List.range (((a - b) + (-s) - 1) / (-s)).toNat).map (fun (i : Nat) => a + s * (i : Int)))

/-- Source: `r = list(map(int, obj['range'].split(':')))` followed by
`range(*r)`. -/
def parseRange (fs : List (String × JsonVal)) : Except String (List Int) :=
  match getF fs "range" with
  | some (.str rs) =>
    (match (pySplitOnChar ':' rs).mapM pyIntE with
    | .error e => .error e
    | .ok [n] => .ok (intRangeList 0 n)
    | .ok [a, b] => .ok (intRangeList a b)
    | .ok [a, b, s] => pyRangeStep a b s
    | .ok [] => .error "TypeError: range expected at least 1 argument"
    | .ok _ => .error "TypeError: range expected at most 3 arguments")
  | some _ => .error "AttributeError: \x27range\x27 value has no attribute split"
  | none => .error "KeyError: \x27range\x27"

/-- The trailing-star rewrite applied at `id` keys:
`if key == 'id' and obj[key][-1] == '*': obj[key] = obj[key][:-1] + value`.
Python's check indexes `obj[key][-1]`, so an `id` key holding an empty
string raises `IndexError`; an `id` key holding a non-string is
conservatively modelled as an error (Python raises for non-indexable
values and for rewritten non-strings). -/
def idRewrite (value : String) (k : String) (v : JsonVal) : Except String JsonVal :=
  if k = "id" then
    match v with
    | .str s =>
      match s.data.getLast? with
      | some c =>
        if c = '*' then .ok (.str ⟨s.data.dropLast ++ value.data⟩)
        else .ok (.str s)
      | none => .error "IndexError: string index out of range"
    | _ => .error "TypeError: \x27id\x27 value is not a string"
  else .ok v

mutual
/-- Source: `replace_star_with_str(obj, value)` from `utils.py`, as a pure
function: recurse into every sequence element and mapping value, then
rewrite every string value under an `id` key whose last character is `*`
by replacing that `*` with `value` (see `idRewrite`). -/
def replace_star_with_str (value : String) : JsonVal → Except String JsonVal
  | .arr xs => (replaceStarList value xs).map .arr
  | .obj fs => (replaceStarFields value fs).map .obj
  | x => .ok x

/-- Source: `replace_star_with_str` over the elements of a sequence. -/
def replaceStarList (value : String) : List JsonVal → Except String (List JsonVal)
  | [] => .ok []
  | x :: xs =>
    match replace_star_with_str value x with
    | .error e => .error e
    | .ok x' =>
      match replaceStarList value xs with
      | .error e => .error e
      | .ok xs' => .ok (x' :: xs')

/-- Source: `replace_star_with_str` over the fields of a mapping, with the
trailing-star rewrite at `id` keys. -/
def replaceStarFields (value : String) : List (String × JsonVal) →
    Except String (List (String × JsonVal))
  | [] => .ok []
  | (k, v) :: fs =>
    match replace_star_with_str value v with
    | .error e => .error e
    | .ok v' =>
      match idRewrite value k v' with
      | .error e => .error e
      | .ok v2 =>
        match replaceStarFields value fs with
        | .error e => .error e
        | .ok fs' => .ok ((k, v2) :: fs')
end

/-- The clone construction of `expand_plates`:
`for i in range(*r): clone = copy.deepcopy(obj['object']);
replace_star_with_str(clone, str(i))`, collecting the clones in index
order. -/
def makeClones (fs : List (String × JsonVal)) : Except String (List JsonVal) :=
  match parseRange fs with
  | .error e => .error e
  | .ok idxs =>
    match getF fs "object" with
    | some tmpl => idxs.mapM (fun i => replace_star_with_str (toString i) tmpl)
    | none => .error "KeyError: \x27object\x27"

/-- The error raised when a plate does not sit inside a list. -/
def plateNotListMsg : String := "plate works only when part of a list"

/-- The out-of-fuel marker of the fueled traversal (the Python recursion
can grow the list it iterates over, so the embedding is fueled; every
theorem below supplies sufficient fuel). -/
def fuelMsg : String := "model: out of fuel"

mutual
/-- Source: `expand_plates(obj, parent, idx)` in a context where `obj` is not an
element of a list (the root, or a mapping value, where `idx is None`): a
plate directive carrying a `range` here raises the structural error; a
plate without `range` is left untouched and not recursed into; other
mappings have their values traversed and sequences are traversed by
`expandLoop`. -/
def expandVal : Nat → JsonVal → Except String JsonVal
  | 0, _ => .error fuelMsg
  | _ + 1, .str s => .ok (.str s)
  | _ + 1, .num q => .ok (.num q)
  | _ + 1, .bool b => .ok (.bool b)
  | f + 1, .arr xs => (expandLoop f xs 0).map .arr
  | f + 1, .obj fs =>
    match plateCheck fs with
    | .error e => .error e
    | .ok true =>
      if (getF fs "range").isSome then .error plateNotListMsg
      else .ok (.obj fs)
    | .ok false => (expandFields f fs).map .obj

/-- The `for i, element in enumerate(obj)` loop of `expand_plates` over a
sequence, index by index, mirroring CPython's index-based iteration over
the list being mutated in place: a plate element carrying a `range` is
spliced out (`del parent[idx]; parent[idx:idx] = objects`) and iteration
continues at the next index (so the first inserted clone is never
itself traversed); every other element is traversed in place. -/
def expandLoop : Nat → List JsonVal → Nat → Except String (List JsonVal)
  | 0, _, _ => .error fuelMsg
  | f + 1, xs, i =>
    if h : i < xs.length then
      match xs.get ⟨i, h⟩ with
      | .obj fs =>
        (match plateCheck fs with
        | .error e => .error e
        | .ok true =>
          if (getF fs "range").isSome then
            match makeClones fs with
            | .error e => .error e
            | .ok clones =>
              expandLoop f (xs.take i ++ clones ++ xs.drop (i + 1)) (i + 1)
          else expandLoop f xs (i + 1)
        | .ok false =>
          match expandFields f fs with
          | .error e => .error e
          | .ok fs' => expandLoop f (xs.set i (.obj fs')) (i + 1))
      | .arr ys =>
        (match expandLoop f ys 0 with
        | .error e => .error e
        | .ok ys' => expandLoop f (xs.set i (.arr ys')) (i + 1))
      | _ => expandLoop f xs (i + 1)
    else .ok xs

/-- Source: `for value in obj.values(): expand_plates(value, obj, None)`. -/
def expandFields : Nat → List (String × JsonVal) →
    Except String (List (String × JsonVal))
  | 0, _ => .error fuelMsg
  | _ + 1, [] => .ok []
  | f + 1, (k, v) :: fs =>
    match expandVal f v with
    | .error e => .error e
    | .ok v' =>
      match expandFields f fs with
      | .error e => .error e
      | .ok fs' => .ok ((k, v') :: fs')
end

mutual
/-- A document free of plate directives (and of the malformed non-string
`type` fields on which the traversal raises): the traversal leaves it
unchanged. -/
def plateFree : JsonVal → Bool
  | .arr xs => plateFreeL xs
  | .obj fs =>
    (match getF fs "type" with
     | some (.str t) => !(endsWithPlate t)
     | some _ => false
     | none => true) && plateFreeF fs
  | _ => true

/-- Source: `plateFree` over sequence elements. -/
def plateFreeL : List JsonVal → Bool
  | [] => true
  | x :: xs => plateFree x && plateFreeL xs

/-- Source: `plateFree` over mapping values. -/
def plateFreeF : List (String × JsonVal) → Bool
  | [] => true
  | (_, v) :: fs => plateFree v && plateFreeF fs
end

mutual
/-- A size measure of documents used to supply sufficient fuel. -/
def jsize : JsonVal → Nat
  | .arr xs => 2 + jsizeL xs
  | .obj fs => 2 + jsizeF fs
  | _ => 1

/-- Source: `jsize` summed over sequence elements. -/
def jsizeL : List JsonVal → Nat
  | [] => 0
  | x :: xs => 1 + jsize x + jsizeL xs

/-- Source: `jsize` summed over mapping values. -/
def jsizeF : List (String × JsonVal) → Nat
  | [] => 0
  | (_, v) :: fs => 1 + jsize v + jsizeF fs
end

theorem jsize_pos (v : JsonVal) : 1 ≤ jsize v := by
  cases v <;> simp [jsize] <;> omega

theorem jsizeL_append (a b : List JsonVal) :
    jsizeL (a ++ b) = jsizeL a + jsizeL b := by
  induction a with
  | nil => simp [jsizeL]
  | cons x xs ih => simp [jsizeL, ih]; omega

theorem plateFreeL_append (a b : List JsonVal) :
    plateFreeL (a ++ b) = (plateFreeL a && plateFreeL b) := by
  induction a with
  | nil => simp [plateFreeL]
  | cons x xs ih => simp [plateFreeL, ih, Bool.and_assoc]

theorem plateFreeL_drop (l : List JsonVal) (n : Nat)
    (h : plateFreeL l = true) : plateFreeL (l.drop n) = true := by
  have hsplit := List.take_append_drop n l
  rw [← hsplit, plateFreeL_append, Bool.and_eq_true] at h
  exact h.2

theorem jsizeL_drop_le (l : List JsonVal) (n : Nat) :
    jsizeL (l.drop n) ≤ jsizeL l := by
  conv_rhs => rw [← List.take_append_drop n l]
  rw [jsizeL_append]
  omega

theorem set_get_self (xs : List JsonVal) (i : Nat) (h : i < xs.length) :
    xs.set i xs[i] = xs := by
  induction xs generalizing i with
  | nil => simp at h
  | cons x xs ih =>
    cases i with
    | zero => simp
    | succ j => simpa using ih j (by simpa using h)

/-- A plate-free document is left unchanged by the traversal, in each of
the three mutually recursive entry points, given fuel covering its
size. -/
theorem expand_identity : ∀ f : Nat,
    (∀ v, plateFree v = true → jsize v ≤ f → expandVal f v = .ok v) ∧
    (∀ xs i, plateFreeL (xs.drop i) = true → jsizeL (xs.drop i) < f →
      expandLoop f xs i = .ok xs) ∧
    (∀ fs, plateFreeF fs = true → jsizeF fs < f → expandFields f fs = .ok fs) := by
  intro f
  induction f with
  | zero =>
    refine ⟨fun v _ hs => ?_, fun xs i _ hs => ?_, fun fs _ hs => ?_⟩
    · exact absurd hs (by have := jsize_pos v; omega)
    · omega
    · omega
  | succ f ih =>
    obtain ⟨ihV, ihL, ihF⟩ := ih
    have hobjCase : ∀ fs, plateFree (.obj fs) = true →
        plateCheck fs = .ok false ∧ plateFreeF fs = true := by
      intro fs hfree
      rw [plateFree, Bool.and_eq_true] at hfree
      refine ⟨?_, hfree.2⟩
      rcases htf : getF fs "type" with _ | tv
      · simp [plateCheck, htf]
      · rcases tv with t | q | b | xs | gs <;> rw [htf] at hfree <;>
          simp_all [plateCheck, htf]
    refine ⟨?_, ?_, ?_⟩
    · intro v hfree hsz
      cases v with
      | str s => rfl
      | num q => rfl
      | bool b => rfl
      | arr xs =>
        rw [plateFree] at hfree
        rw [jsize] at hsz
        have := ihL xs 0 (by simpa using hfree) (by simpa using by omega)
        simp [expandVal, this, Except.map]
      | obj fs =>
        obtain ⟨hpc, hff⟩ := hobjCase fs hfree
        rw [jsize] at hsz
        have := ihF fs hff (by omega)
        simp [expandVal, hpc, this, Except.map]
    · intro xs i hfree hsz
      by_cases h : i < xs.length
      · have hdrop : xs.drop i = xs[i] :: xs.drop (i + 1) :=
          List.drop_eq_getElem_cons h
        rw [hdrop, plateFreeL, Bool.and_eq_true] at hfree
        rw [hdrop, jsizeL] at hsz
        have htail := ihL xs (i + 1) hfree.2 (by have := jsize_pos xs[i]; omega)
        rcases hx : xs[i] with s | q | b | ys | fs
        · rw [hx] at hfree hsz
          simp [expandLoop, h, hx, htail]
        · rw [hx] at hfree hsz
          simp [expandLoop, h, hx, htail]
        · rw [hx] at hfree hsz
          simp [expandLoop, h, hx, htail]
        · rw [hx] at hfree hsz
          rw [plateFree] at hfree
          rw [jsize] at hsz
          have hin := ihL ys 0 (by simpa using hfree.1) (by simp; omega)
          have hset : xs.set i (.arr ys) = xs := by
            rw [← hx]; exact set_get_self xs i h
          simp [expandLoop, h, hx, hin, hset, htail]
        · rw [hx] at hfree hsz
          obtain ⟨hpc, hff⟩ := hobjCase fs hfree.1
          rw [jsize] at hsz
          have hin := ihF fs hff (by omega)
          have hset : xs.set i (.obj fs) = xs := by
            rw [← hx]; exact set_get_self xs i h
          simp [expandLoop, h, hx, hpc, hin, hset, htail]
      · simp [expandLoop, h]
    · intro fs hfree hsz
      cases fs with
      | nil => rfl
      | cons kv fs =>
        obtain ⟨k, v⟩ := kv
        rw [plateFreeF, Bool.and_eq_true] at hfree
        rw [jsizeF] at hsz
        have hv := ihV v hfree.1 (by omega)
        have hfs := ihF fs hfree.2 (by omega)
        simp [expandFields, hv, hfs]

/-- Traversing `x :: xs` from index `i + 1` is traversing `xs` from `i`
with `x` prepended to the result. -/
theorem expandLoop_cons_shift : ∀ (f : Nat) (x : JsonVal) (xs : List JsonVal) (i : Nat),
    expandLoop f (x :: xs) (i + 1) = (expandLoop f xs i).map (fun l => x :: l) := by
  intro f
  induction f with
  | zero => intro x xs i; rfl
  | succ f ih =>
    intro x xs i
    by_cases h : i < xs.length
    · have h' : i + 1 < (x :: xs).length := by simp; omega
      rcases hx : xs[i] with s | q | b | ys | fs
      · simp [expandLoop, h, h', hx, ih]
      · simp [expandLoop, h, h', hx, ih]
      · simp [expandLoop, h, h', hx, ih]
      · rcases hys : expandLoop f ys 0 with e | ys' <;>
          simp [expandLoop, h, h', hx, hys, ih, Except.map]
      · rcases hpc : plateCheck fs with e | pb
        · simp [expandLoop, h, h', hx, hpc, Except.map]
        · cases pb with
          | false =>
            rcases hef : expandFields f fs with e | fs' <;>
              simp [expandLoop, h, h', hx, hpc, hef, ih, Except.map]
          | true =>
            by_cases hr : (getF fs "range").isSome = true
            · rcases hmc : makeClones fs with e | clones <;>
                simp [expandLoop, h, h', hx, hpc, hr, hmc, ih, Except.map]
            · simp [expandLoop, h, h', hx, hpc, hr, ih, Except.map]
    · have h' : ¬ (i + 1 < (x :: xs).length) := by simp; omega
      simp [expandLoop, h, h', Except.map]

/-- A successful `mapM` preserves length. -/
theorem mapM_ok_length {α β : Type} (g : α → Except String β) :
    ∀ (l : List α) (l' : List β), l.mapM g = .ok l' → l'.length = l.length := by
  intro l
  induction l with
  | nil =>
    intro l' h
    simp only [List.mapM_nil, pure, Except.pure] at h
    cases h
    rfl
  | cons a as ih =>
    intro l' h
    rw [List.mapM_cons] at h
    rcases hga : g a with e | b <;> rw [hga] at h <;>
      simp only [bind, Except.bind] at h
    · cases h
    · rcases hmas : as.mapM g with e | bs <;> rw [hmas] at h
      · cases h
      · simp only [pure, Except.pure] at h
        cases h
        simp [ih bs hmas]

/-- Source: `replace_star_with_str` preserves plate-freeness: it only rewrites
string values under `id` keys, so it never introduces a plate directive
nor disturbs a `type` field that is a string or absent. -/
theorem replaceStar_preserves (value : String) : ∀ n : Nat,
    (∀ v c, jsize v ≤ n → plateFree v = true →
      replace_star_with_str value v = .ok c → plateFree c = true) ∧
    (∀ xs cs, jsizeL xs ≤ n → plateFreeL xs = true →
      replaceStarList value xs = .ok cs → plateFreeL cs = true) ∧
    (∀ fs gs, jsizeF fs ≤ n → plateFreeF fs = true →
      replaceStarFields value fs = .ok gs →
      plateFreeF gs = true ∧
      (getF fs "type" = none → getF gs "type" = none) ∧
      (∀ t, getF fs "type" = some (.str t) → getF gs "type" = some (.str t))) := by
  intro n
  induction n with
  | zero =>
    refine ⟨fun v c hn => absurd hn (by have := jsize_pos v; omega), ?_, ?_⟩
    · intro xs cs hn _ h
      cases xs with
      | nil =>
        cases h
        rfl
      | cons x xs => simp [jsizeL] at hn
    · intro fs gs hn _ h
      cases fs with
      | nil =>
        cases h
        exact ⟨rfl, fun _ => rfl, fun t ht => by simp [getF] at ht⟩
      | cons kv fs =>
        obtain ⟨k, v⟩ := kv
        simp [jsizeF] at hn
  | succ n ih =>
    obtain ⟨ihV, ihL, ihF⟩ := ih
    refine ⟨?_, ?_, ?_⟩
    · intro v c hn hfree h
      cases v with
      | str s => cases h; exact hfree
      | num q => cases h; exact hfree
      | bool b => cases h; exact hfree
      | arr xs =>
        rw [jsize] at hn
        rw [plateFree] at hfree
        rcases hls : replaceStarList value xs with e | cs <;>
          rw [replace_star_with_str, hls] at h
        · cases h
        · cases h
          rw [plateFree]
          exact ihL xs cs (by omega) hfree hls
      | obj fs =>
        rw [jsize] at hn
        rw [plateFree, Bool.and_eq_true] at hfree
        rcases hfs : replaceStarFields value fs with e | gs <;>
          rw [replace_star_with_str, hfs] at h
        · cases h
        · cases h
          obtain ⟨hgs, hnone, hstr⟩ := ihF fs gs (by omega) hfree.2 hfs
          rw [plateFree, Bool.and_eq_true]
          refine ⟨?_, hgs⟩
          rcases htf : getF fs "type" with _ | tv
          · rw [hnone htf]
          · rcases tv with t | q | b | xs | hs <;> rw [htf] at hfree
            · rw [hstr t htf]
              exact hfree.1
            all_goals (exfalso; simpa using hfree.1)
    · intro xs cs hn hfree h
      cases xs with
      | nil => cases h; rfl
      | cons x xs =>
        rw [jsizeL] at hn
        rw [plateFreeL, Bool.and_eq_true] at hfree
        rcases hx : replace_star_with_str value x with e | x' <;>
          rw [replaceStarList, hx] at h
        · cases h
        · rcases hxs : replaceStarList value xs with e | xs' <;> rw [hxs] at h
          · cases h
          · cases h
            rw [plateFreeL, Bool.and_eq_true]
            exact ⟨ihV x x' (by omega) hfree.1 hx, ihL xs xs' (by omega) hfree.2 hxs⟩
    · intro fs gs hn hfree h
      cases fs with
      | nil =>
        cases h
        exact ⟨rfl, fun _ => rfl, fun t ht => by simp [getF] at ht⟩
      | cons kv fs =>
        obtain ⟨k, v⟩ := kv
        rw [jsizeF] at hn
        rw [plateFreeF, Bool.and_eq_true] at hfree
        rcases hv : replace_star_with_str value v with e | v'
        · rw [replaceStarFields, hv] at h
          cases h
        · have hv' : plateFree v' = true := ihV v v' (by omega) hfree.1 hv
          rcases hv2 : idRewrite value k v' with e | v2
          · rw [replaceStarFields, hv] at h
            simp only [hv2] at h
            cases h
          · rcases hfs : replaceStarFields value fs with e | gs'
            · rw [replaceStarFields, hv] at h
              simp only [hv2, hfs] at h
              cases h
            · rw [replaceStarFields, hv] at h
              simp only [hv2, hfs] at h
              cases h
              obtain ⟨hgs', hnone', hstr'⟩ := ihF fs gs' (by omega) hfree.2 hfs
              have hv2free : plateFree v2 = true := by
                by_cases hk : k = "id"
                · subst hk
                  rcases v' with s | q | b | xs | hs
                  · rcases hl : s.data.getLast? with _ | c
                    · simp [idRewrite, hl] at hv2
                    · by_cases hc : c = '*'
                      · simp [idRewrite, hl, hc] at hv2
                        subst hv2
                        rfl
                      · simp [idRewrite, hl, hc] at hv2
                        subst hv2
                        rfl
                  all_goals simp [idRewrite] at hv2
                · simp [idRewrite, hk] at hv2
                  subst hv2
                  exact hv'
              refine ⟨by rw [plateFreeF, Bool.and_eq_true]; exact ⟨hv2free, hgs'⟩, ?_, ?_⟩
              · intro hnone
                by_cases hk : k = "type"
                · exfalso
                  subst hk
                  simp [getF, List.lookup] at hnone
                · have hbeq : ("type" == k) = false := by
                    simp only [beq_eq_false_iff_ne]
                    exact fun h => hk h.symm
                  simp only [getF, List.lookup, hbeq] at hnone ⊢
                  exact hnone' hnone
              · intro t ht
                by_cases hk : k = "type"
                · subst hk
                  simp only [getF, List.lookup, beq_self_eq_true] at ht ⊢
                  cases ht
                  simp only [replace_star_with_str] at hv
                  cases hv
                  simp [idRewrite] at hv2
                  subst hv2
                  rfl
                · have hbeq : ("type" == k) = false := by
                    simp only [beq_eq_false_iff_ne]
                    exact fun h => hk h.symm
                  simp only [getF, List.lookup, hbeq] at ht ⊢
                  exact hstr' t ht

/-- All clones produced from a plate-free template are plate-free. -/
theorem clones_plateFree (tmpl : JsonVal) (htmpl : plateFree tmpl = true) :
    ∀ (idxs : List Int) (clones : List JsonVal),
      idxs.mapM (fun i => replace_star_with_str (toString i) tmpl) = .ok clones →
      plateFreeL clones = true := by
  intro idxs
  induction idxs with
  | nil =>
    intro clones h
    simp only [List.mapM_nil, pure, Except.pure] at h
    cases h
    rfl
  | cons i is ih =>
    intro clones h
    rw [List.mapM_cons] at h
    rcases hc : replace_star_with_str (toString i) tmpl with e | c <;> rw [hc] at h <;>
      simp only [bind, Except.bind] at h
    · cases h
    · rcases hrest : is.mapM (fun i => replace_star_with_str (toString i) tmpl)
        with e | cs <;> rw [hrest] at h
      · cases h
      · simp only [pure, Except.pure] at h
        cases h
        rw [plateFreeL, Bool.and_eq_true]
        exact ⟨(replaceStar_preserves (toString i) (jsize tmpl)).1 tmpl c le_rfl htmpl hc,
          ih cs hrest⟩

/-- A plate-free mapping passes `plateCheck` as a non-plate and has
plate-free field values. -/
theorem plateCheck_of_plateFree (fs : List (String × JsonVal))
    (h : plateFree (.obj fs) = true) :
    plateCheck fs = .ok false ∧ plateFreeF fs = true := by
  rw [plateFree, Bool.and_eq_true] at h
  refine ⟨?_, h.2⟩
  rcases htf : getF fs "type" with _ | tv
  · simp [plateCheck, htf]
  · rcases tv with t | q | b | xs | gs <;> rw [htf] at h <;>
      simp_all [plateCheck, htf]

/-- One iteration of the traversal loop over a plate-free element is a
no-op that advances the index. -/
theorem expandLoop_step_free (f : Nat) (xs : List JsonVal) (i : Nat)
    (h : i < xs.length) (hfree : plateFree xs[i] = true) (hsz : jsize xs[i] ≤ f) :
    expandLoop (f + 1) xs i = expandLoop f xs (i + 1) := by
  rcases hx : xs[i] with s | q | b | ys | fs
  · simp [expandLoop, h, hx]
  · simp [expandLoop, h, hx]
  · simp [expandLoop, h, hx]
  · rw [hx] at hfree hsz
    rw [plateFree] at hfree
    rw [jsize] at hsz
    have hin := (expand_identity f).2.1 ys 0 (by simpa using hfree) (by simp; omega)
    have hset : xs.set i (.arr ys) = xs := by
      rw [← hx]; exact set_get_self xs i h
    simp [expandLoop, h, hx, hin, hset]
  · rw [hx] at hfree hsz
    obtain ⟨hpc, hff⟩ := plateCheck_of_plateFree fs hfree
    rw [jsize] at hsz
    have hin := (expand_identity f).2.2 fs hff (by omega)
    have hset : xs.set i (.obj fs) = xs := by
      rw [← hx]; exact set_get_self xs i h
    simp [expandLoop, h, hx, hpc, hin, hset]

/-- The traversal of a list holding a plate directive among plate-free
siblings: the plate is replaced, at its position, by its clones. -/
theorem expandLoop_splice
    (plateFs : List (String × JsonVal)) (tmpl : JsonVal) (clones : List JsonVal)
    (tyName rs : String) (a b : Int)
    (htype : getF plateFs "type" = some (.str tyName))
    (hty : endsWithPlate tyName = true)
    (hrange : getF plateFs "range" = some (.str rs))
    (hab : (pySplitOnChar ':' rs).mapM pyIntE = .ok [a, b])
    (hobj : getF plateFs "object" = some tmpl)
    (hclones : (intRangeList a b).mapM
      (fun i => replace_star_with_str (toString i) tmpl) = .ok clones)
    (htmpl : plateFree tmpl = true) :
    ∀ (pre : List JsonVal) (f : Nat) (post : List JsonVal),
      plateFreeL pre = true → plateFreeL post = true →
      jsizeL pre + jsizeL clones + jsizeL post + 2 < f →
      expandLoop f (pre ++ .obj plateFs :: post) 0 = .ok (pre ++ clones ++ post) := by
  have hab' : List.mapM.loop pyIntE (pySplitOnChar ':' rs) [] = .ok [a, b] := hab
  have hclones' : List.mapM.loop (fun i => replace_star_with_str (toString i) tmpl)
      (intRangeList a b) [] = .ok clones := hclones
  have hmc : makeClones plateFs = .ok clones := by
    simp [makeClones, parseRange, hrange, hab, hab', hobj, hclones, hclones']
  have hpc : plateCheck plateFs = .ok true := by
    simp [plateCheck, htype, hty]
  intro pre
  induction pre with
  | nil =>
    intro f post _ hpost hf
    obtain ⟨f', rfl⟩ : ∃ f', f = f' + 1 := ⟨f - 1, by omega⟩
    have hfreecp : plateFreeL (clones ++ post) = true := by
      rw [plateFreeL_append, Bool.and_eq_true]
      exact ⟨clones_plateFree tmpl htmpl _ clones hclones, hpost⟩
    have hid := (expand_identity f').2.1 (clones ++ post) 1
      (plateFreeL_drop _ 1 hfreecp)
      (by
        have h1 := jsizeL_drop_le (clones ++ post) 1
        rw [jsizeL_append] at h1
        simp only [jsizeL] at hf
        omega)
    simp [expandLoop, hpc, hrange, hmc, hid]
  | cons x pre ih =>
    intro f post hpre hpost hf
    rw [plateFreeL, Bool.and_eq_true] at hpre
    rw [jsizeL] at hf
    obtain ⟨f', rfl⟩ : ∃ f', f = f' + 1 := ⟨f - 1, by have := jsize_pos x; omega⟩
    have hstep := expandLoop_step_free f' (x :: (pre ++ .obj plateFs :: post)) 0
      (by simp) (by simpa using hpre.1) (by simpa using by omega)
    rw [List.cons_append, hstep, expandLoop_cons_shift,
      ih f' post hpre.2 hpost (by omega)]
    simp [Except.map]

/-- Claim C5: a plate directive (type name ending in "Plate") carrying
range `a:b` that sits as an element of a sequence is replaced, at its
position in that sequence, by the `b - a` clones of its `object`
template in ascending index order, clone `i` being the template with
every trailing-star `id` rewritten by `str(i)` (hypothesis `hclones`
links the clones to `replace_star_with_str` over the parsed ascending
range); a plate directive carrying a range that is not an element of a
sequence fails with the structural error "plate works only when part of
a list". -/
theorem C5_plate_expansion_splices_clones_in_place
    (f : Nat) (pre post clones : List JsonVal)
    (plateFs : List (String × JsonVal)) (tmpl : JsonVal)
    (tyName rs : String) (a b : Int)
    (htype : getF plateFs "type" = some (.str tyName))
    (hty : endsWithPlate tyName = true)
    (hrange : getF plateFs "range" = some (.str rs))
    (hab : (pySplitOnChar ':' rs).mapM pyIntE = .ok [a, b])
    (hobj : getF plateFs "object" = some tmpl)
    (hclones : (intRangeList a b).mapM
      (fun i => replace_star_with_str (toString i) tmpl) = .ok clones)
    (hpre : plateFreeL pre = true)
    (hpost : plateFreeL post = true)
    (htmpl : plateFree tmpl = true)
    (hf : jsizeL pre + jsizeL clones + jsizeL post + 3 < f) :
    expandVal f (.arr (pre ++ .obj plateFs :: post)) =
      .ok (.arr (pre ++ clones ++ post)) ∧
    clones.length = (b - a).toNat ∧
    (∀ g, expandVal (g + 1) (.obj plateFs) = .error plateNotListMsg) := by
  refine ⟨?_, ?_, ?_⟩
  · obtain ⟨f', rfl⟩ : ∃ f', f = f' + 1 := ⟨f - 1, by omega⟩
    have hloop := expandLoop_splice plateFs tmpl clones tyName rs a b htype hty
      hrange hab hobj hclones htmpl pre f' post hpre hpost (by omega)
    simp [expandVal, hloop, Except.map]
  · have hlen := mapM_ok_length _ _ _ hclones
    rw [hlen, intRangeList, List.length_map, List.length_range]
  · intro g
    simp [expandVal, plateCheck, htype, hty, hrange]

/-- The template of the spec's plate scenario (`id` ends in `*`). -/
def tmplW : JsonVal :=
  .obj [("id", .str "b*"), ("type", .str "Parameter"), ("zeros", .arr [.num 1])]

/-- The plate directive of the spec's scenario: range `0:2`. -/
def plateFsW : List (String × JsonVal) :=
  [("id", .str "b*"), ("type", .str "phylotorch.core.model.Plate"),
   ("range", .str "0:2"), ("object", tmplW)]

/-- The two expected clones, with `b*` rewritten to `b0` and `b1`. -/
def clonesW : List JsonVal :=
  [.obj [("id", .str "b0"), ("type", .str "Parameter"), ("zeros", .arr [.num 1])],
   .obj [("id", .str "b1"), ("type", .str "Parameter"), ("zeros", .arr [.num 1])]]

theorem C5_witness :
    expandVal 50 (.arr [.obj plateFsW]) = .ok (.arr clonesW) :=
  (C5_plate_expansion_splices_clones_in_place 50 [] [] clonesW plateFsW tmplW
    "phylotorch.core.model.Plate" "0:2" 0 2 rfl rfl rfl rfl rfl rfl rfl rfl rfl
    (by decide)).1

end Phylotorch
